import Mathlib

/-!
Verification of the LifeHub multi-agent orchestration layer
(`backend/agents/graph.py`, `backend/app/main.py`) against its
natural-language specification.

The development shallowly embeds the Python source:
* JSON values (`J`) model the values produced by `json.loads` and consumed
  by `json.dumps`; a small executable JSON reader (`jsonLoads`) models
  `json.loads` for the planner's parse step.  JSON number literals that
  carry a fraction or exponent decode to Python floats; they are kept as
  their literal text (`J.fnum`) — no verified property depends on float
  arithmetic or float re-serialisation.
* `parse_plan` models the parse-and-normalise step of `planner_node`
  (graph.py): strip whitespace, strip a markdown code fence, decode JSON
  (only a decode failure is caught — it yields the fallback plan), extract
  the `plan` field and normalise each entry.  `Except String` models a
  Python exception escaping the step.
* `worker_execute` / `worker_node` model the worker stage: the plan is
  walked in order, tools are looked up in a registry (the source's
  `TOOL_MAP`, a dict from name to an invocable capability; tool behaviour
  is a parameter since the real capabilities perform network/file I/O),
  and one context-log entry is appended per step.
* `stream_response` models the SSE generator of `main.py`: the graph run
  is abstracted as the list of internal events it delivers plus an
  optional exception raised mid-stream, or a failure to obtain the graph.
* `convert_messages` models the API-to-LangChain message conversion.
-/

namespace LifeHub

/-- A JSON value as `json.loads` produces it (Python: dict / list / str /
int / float / bool / None).  Objects keep Python-dict key order: the order
of first insertion, with a duplicate key overwriting the stored value in
place.  A number literal with a fraction or exponent (a Python float) is
kept as its literal text. -/
inductive J where
  | null : J
  | bool (b : Bool) : J
  | num (n : Int) : J
  | fnum (lit : String) : J
  | str (s : String) : J
  | arr (xs : List J) : J
  | obj (kvs : List (String × J)) : J

/-! ### json.dumps (default options: `ensure_ascii=True`, separators `", "` / `": "`) -/

/-- Lower-case hex digit. -/
def hexDigit (n : Nat) : Char :=
  if n < 10 then Char.ofNat ('0'.toNat + n) else Char.ofNat ('a'.toNat + n - 10)

/-- Four lower-case hex digits, as in `\uXXXX`. -/
def hex4 (n : Nat) : List Char :=
  [hexDigit (n / 4096 % 16), hexDigit (n / 256 % 16), hexDigit (n / 16 % 16), hexDigit (n % 16)]

/-- How `json.dumps` renders one character of a string (`ensure_ascii=True`):
the two-character escapes, `\uXXXX` for other control or non-ASCII
characters (a surrogate pair for astral characters), the character itself
otherwise. -/
def escChar (c : Char) : List Char :=
  if c = '"' then ['\\', '"']
  else if c = '\\' then ['\\', '\\']
  else if c = '\n' then ['\\', 'n']
  else if c = '\r' then ['\\', 'r']
  else if c = '\t' then ['\\', 't']
  else if c.toNat = 8 then ['\\', 'b']
  else if c.toNat = 12 then ['\\', 'f']
  else if c.toNat < 32 ∨ c.toNat ≥ 127 then
    if c.toNat ≤ 0xFFFF then '\\' :: 'u' :: hex4 c.toNat
    else
      ('\\' :: 'u' :: hex4 (0xD800 + (c.toNat - 0x10000) / 0x400)) ++
        ('\\' :: 'u' :: hex4 (0xDC00 + (c.toNat - 0x10000) % 0x400))
  else [c]

def escapeChars : List Char → List Char
  | [] => []
  | c :: cs => escChar c ++ escapeChars cs

/-- `json.dumps` of a string. -/
def dumpsStr (s : String) : String :=
  "\"" ++ String.mk (escapeChars s.data) ++ "\""

mutual

/-- `json.dumps(v)` with default options. -/
def dumps : J → String
  | .null => "null"
  | .bool true => "true"
  | .bool false => "false"
  | .num n => toString n
  | .fnum lit => lit
  | .str s => dumpsStr s
  | .arr xs => "[" ++ dumpsList xs ++ "]"
  | .obj kvs => "\x7b" ++ dumpsObj kvs ++ "\x7d"

def dumpsList : List J → String
  | [] => ""
  | [x] => dumps x
  | x :: y :: xs => dumps x ++ ", " ++ dumpsList (y :: xs)

def dumpsObj : List (String × J) → String
  | [] => ""
  | [(k, v)] => dumpsStr k ++ ": " ++ dumps v
  | (k, v) :: m :: kvs => dumpsStr k ++ ": " ++ dumps v ++ ", " ++ dumpsObj (m :: kvs)

end

/-! ### json.loads -/

/-- The whitespace `json.loads` skips between tokens (`' \t\n\r'`). -/
def isJsonWs (c : Char) : Bool :=
  c = ' ' ∨ c = '\t' ∨ c = '\n' ∨ c = '\r'

def skipWs : List Char → List Char
  | [] => []
  | c :: cs => if isJsonWs c then skipWs cs else c :: cs

def hexVal (c : Char) : Option Nat :=
  if '0' ≤ c ∧ c ≤ '9' then some (c.toNat - '0'.toNat)
  else if 'a' ≤ c ∧ c ≤ 'f' then some (c.toNat - 'a'.toNat + 10)
  else if 'A' ≤ c ∧ c ≤ 'F' then some (c.toNat - 'A'.toNat + 10)
  else none

def hex4Val (a b c d : Char) : Option Nat := do
  let x ← hexVal a
  let y ← hexVal b
  let z ← hexVal c
  let w ← hexVal d
  pure (x * 4096 + y * 256 + z * 16 + w)

/-- Body of a JSON string, after the opening quote: the decoded characters
and the input after the closing quote.  Escapes are decoded as Python's
`json` does; a `\uXXXX` high surrogate followed by a low surrogate escape
forms one astral character.  Python keeps a *lone* surrogate escape as a
lone surrogate code unit, which a Lean `Char` cannot hold; it is stood for
by U+FFFD (no verified property depends on such a string). -/
def parseStrChars : Nat → List Char → Option (List Char × List Char)
  | 0, _ => none
  | _ + 1, [] => none
  | fuel + 1, c :: cs =>
    if c = '"' then some ([], cs)
    else if c = '\\' then
      match cs with
      | [] => none
      | e :: cs' =>
        if e = 'u' then
          match cs' with
          | a :: b :: c2 :: d :: cs'' =>
            match hex4Val a b c2 d with
            | none => none
            | some h =>
              if 0xD800 ≤ h ∧ h ≤ 0xDBFF then
                match cs'' with
                | '\\' :: 'u' :: a2 :: b2 :: c3 :: d2 :: cs3 =>
                  match hex4Val a2 b2 c3 d2 with
                  | some l =>
                    if 0xDC00 ≤ l ∧ l ≤ 0xDFFF then
                      (parseStrChars fuel cs3).map fun p =>
                        (Char.ofNat (0x10000 + (h - 0xD800) * 0x400 + (l - 0xDC00)) :: p.1, p.2)
                    else
                      (parseStrChars fuel cs'').map fun p => ('�' :: p.1, p.2)
                  | none =>
                    (parseStrChars fuel cs'').map fun p => ('�' :: p.1, p.2)
                | _ =>
                  (parseStrChars fuel cs'').map fun p => ('�' :: p.1, p.2)
              else if 0xDC00 ≤ h ∧ h ≤ 0xDFFF then
                (parseStrChars fuel cs'').map fun p => ('�' :: p.1, p.2)
              else
                (parseStrChars fuel cs'').map fun p => (Char.ofNat h :: p.1, p.2)
          | _ => none
        else if e = '"' then (parseStrChars fuel cs').map fun p => ('"' :: p.1, p.2)
        else if e = '\\' then (parseStrChars fuel cs').map fun p => ('\\' :: p.1, p.2)
        else if e = '/' then (parseStrChars fuel cs').map fun p => ('/' :: p.1, p.2)
        else if e = 'b' then (parseStrChars fuel cs').map fun p => (Char.ofNat 8 :: p.1, p.2)
        else if e = 'f' then (parseStrChars fuel cs').map fun p => (Char.ofNat 12 :: p.1, p.2)
        else if e = 'n' then (parseStrChars fuel cs').map fun p => ('\n' :: p.1, p.2)
        else if e = 'r' then (parseStrChars fuel cs').map fun p => ('\r' :: p.1, p.2)
        else if e = 't' then (parseStrChars fuel cs').map fun p => ('\t' :: p.1, p.2)
        else none
    else if c.toNat < 32 then none
    else (parseStrChars fuel cs).map fun p => (c :: p.1, p.2)

def spanDigits : List Char → List Char × List Char
  | [] => ([], [])
  | c :: cs =>
    if c.isDigit then
      let (ds, rest) := spanDigits cs
      (c :: ds, rest)
    else ([], c :: cs)

def digitsToNat (ds : List Char) : Nat :=
  ds.foldl (fun n c => n * 10 + (c.toNat - '0'.toNat)) 0

/-- A JSON number (grammar `-?(0|[1-9][0-9]*)(\.[0-9]+)?([eE][+-]?[0-9]+)?`,
as Python's json matches it): an integer literal becomes a Python int, a
literal with fraction or exponent a Python float (kept verbatim). -/
def parseNum (cs : List Char) : Option (J × List Char) :=
  let (neg, cs1) := match cs with
    | '-' :: r => (true, r)
    | _ => (false, cs)
  match cs1 with
  | [] => none
  | c :: _ =>
    if ¬ c.isDigit then none
    else
      let (ip, cs2) := if c = '0' then ([c], cs1.tail) else spanDigits cs1
      let (hasFrac, cs3) := match cs2 with
        | '.' :: d :: r => if d.isDigit then (true, (spanDigits (d :: r)).2) else (false, cs2)
        | _ => (false, cs2)
      let (hasExp, cs4) :=
        match cs3 with
        | e :: '+' :: d :: r =>
          if (e = 'e' ∨ e = 'E') ∧ d.isDigit then (true, (spanDigits (d :: r)).2) else (false, cs3)
        | e :: '-' :: d :: r =>
          if (e = 'e' ∨ e = 'E') ∧ d.isDigit then (true, (spanDigits (d :: r)).2) else (false, cs3)
        | e :: d :: r =>
          if (e = 'e' ∨ e = 'E') ∧ d.isDigit then (true, (spanDigits (d :: r)).2) else (false, cs3)
        | _ => (false, cs3)
      if hasFrac ∨ hasExp then
        some (J.fnum (String.mk (cs.take (cs.length - cs4.length))), cs4)
      else
        some (J.num (if neg then -(digitsToNat ip : Int) else (digitsToNat ip : Int)), cs2)

/-- Python-dict insertion: a duplicate key overwrites the stored value in
place (keeping the key's original position); a new key is appended. -/
def dictInsert : List (String × J) → String → J → List (String × J)
  | [], k, v => [(k, v)]
  | (k', v') :: rest, k, v =>
    if k' = k then (k', v) :: rest else (k', v') :: dictInsert rest k v

mutual

/-- One JSON value starting at `cs` (leading whitespace allowed), with the
rest of the input.  `fuel` only bounds nesting; `jsonLoads` supplies enough
for any input. -/
def parseVal : Nat → List Char → Option (J × List Char)
  | 0, _ => none
  | fuel + 1, cs =>
    match skipWs cs with
    | [] => none
    | 't' :: 'r' :: 'u' :: 'e' :: rest => some (J.bool true, rest)
    | 'f' :: 'a' :: 'l' :: 's' :: 'e' :: rest => some (J.bool false, rest)
    | 'n' :: 'u' :: 'l' :: 'l' :: rest => some (J.null, rest)
    | 'N' :: 'a' :: 'N' :: rest => some (J.fnum "NaN", rest)
    | 'I' :: 'n' :: 'f' :: 'i' :: 'n' :: 'i' :: 't' :: 'y' :: rest => some (J.fnum "Infinity", rest)
    | '-' :: 'I' :: 'n' :: 'f' :: 'i' :: 'n' :: 'i' :: 't' :: 'y' :: rest =>
      some (J.fnum "-Infinity", rest)
    | '"' :: rest =>
      (parseStrChars (rest.length + 1) rest).map fun p => (J.str (String.mk p.1), p.2)
    | '\x7b' :: rest =>
      match skipWs rest with
      | '\x7d' :: rest' => some (J.obj [], rest')
      | other => (parseMembers fuel [] other).map fun p => (J.obj p.1, p.2)
    | '[' :: rest =>
      match skipWs rest with
      | ']' :: rest' => some (J.arr [], rest')
      | other => (parseElems fuel [] other).map fun p => (J.arr p.1, p.2)
    | other => parseNum other

/-- The members of a JSON object, after `{` (and not `}`): `"key": value`
pairs separated by `,`, closed by `}`. -/
def parseMembers : Nat → List (String × J) → List Char → Option (List (String × J) × List Char)
  | 0, _, _ => none
  | fuel + 1, acc, cs =>
    match skipWs cs with
    | '"' :: rest =>
      match parseStrChars (rest.length + 1) rest with
      | none => none
      | some (kcs, r1) =>
        match skipWs r1 with
        | ':' :: r2 =>
          match parseVal fuel r2 with
          | none => none
          | some (v, r3) =>
            let acc' := dictInsert acc (String.mk kcs) v
            match skipWs r3 with
            | ',' :: r4 => parseMembers fuel acc' r4
            | '\x7d' :: r4 => some (acc', r4)
            | _ => none
        | _ => none
    | _ => none

/-- The elements of a JSON array, after `[` (and not `]`). -/
def parseElems : Nat → List J → List Char → Option (List J × List Char)
  | 0, _, _ => none
  | fuel + 1, acc, cs =>
    match parseVal fuel cs with
    | none => none
    | some (v, r1) =>
      match skipWs r1 with
      | ',' :: r2 => parseElems fuel (acc ++ [v]) r2
      | ']' :: r2 => some (acc ++ [v], r2)
      | _ => none

end

/-- `json.loads(s)`: one JSON value, with only whitespace after it;
`none` models `json.JSONDecodeError`. -/
def jsonLoads (s : String) : Option J :=
  match parseVal (s.length + 1) s.data with
  | some (v, rest) => if skipWs rest = [] then some v else none
  | none => none

/-! ### planner_node: the parse-and-normalise step (graph.py) -/

/-- The characters Python's `str.strip()` removes (`str.isspace`). -/
def pyIsSpace (c : Char) : Bool :=
  let n := c.toNat
  (9 ≤ n ∧ n ≤ 13) ∨ (28 ≤ n ∧ n ≤ 32) ∨ n = 0x85 ∨ n = 0xA0 ∨ n = 0x1680 ∨
    (0x2000 ≤ n ∧ n ≤ 0x200A) ∨ n = 0x2028 ∨ n = 0x2029 ∨ n = 0x202F ∨ n = 0x205F ∨ n = 0x3000

/-- Python `s.strip()`. -/
def pyStrip (s : String) : String :=
  String.mk (((s.data.dropWhile pyIsSpace).reverse.dropWhile pyIsSpace).reverse)

/-- The backtick character. -/
def fenceChar : Char := Char.ofNat 96

/-- Python `content.split("\n")`. -/
def splitNl : List Char → List (List Char)
  | [] => [[]]
  | c :: cs =>
    let r := splitNl cs
    if c = '\n' then [] :: r
    else
      match r with
      | l :: ls => (c :: l) :: ls
      | [] => [[c]]

/-- Python `"\n".join(lines)`. -/
def joinNl : List (List Char) → List Char
  | [] => []
  | [l] => l
  | l :: m :: ls => l ++ '\n' :: joinNl (m :: ls)

/-- The markdown code-fence removal of `planner_node`:
if the stripped content starts with three backticks, drop its first line,
and also its last line when that line is exactly three backticks. -/
def stripFence (content : String) : String :=
  match content.data with
  | c1 :: c2 :: c3 :: _ =>
    if c1 = fenceChar ∧ c2 = fenceChar ∧ c3 = fenceChar then
      let lines := splitNl content.data
      String.mk (joinNl
        (if lines.getLast? = some [fenceChar, fenceChar, fenceChar] then
          (lines.drop 1).dropLast
        else lines.drop 1))
    else content
  | _ => content

/-- A normalised plan entry as `planner_node` builds it: a Python dict with
keys `step`, `description`, `tool`, `tool_input`, each holding whatever
value the model's JSON supplied (or the normalisation default). -/
structure NStep where
  step : J
  description : J
  tool : J
  tool_input : J

/-- The deterministic fallback plan of `planner_node`:
`[{"step": 1, "description": "Respond directly to user", "tool": None, "tool_input": None}]`. -/
def fallbackPlan : List NStep :=
  [⟨J.num 1, J.str "Respond directly to user", J.null, J.null⟩]

/-- Python `d.get(k, default)` on a decoded JSON object: the stored value
(`null` included) when the key is present, the default otherwise.
Objects built by `jsonLoads` have distinct keys (`dictInsert`). -/
def pyGet (kvs : List (String × J)) (k : String) (d : J) : J :=
  match kvs.lookup k with
  | some v => v
  | none => d

/-- Python `for i, step in enumerate(plan)` over the extracted `plan`
value: a list iterates its elements, a string its one-character substrings,
a dict its keys; anything else raises `TypeError` (which `planner_node`
does not catch). -/
def planItems : J → Except String (List J)
  | .arr xs => .ok xs
  | .str s => .ok (s.data.map fun c => J.str (String.mk [c]))
  | .obj kvs => .ok (kvs.map fun kv => J.str kv.1)
  | _ => .error "TypeError: object is not iterable"

/-- One iteration of the normalisation loop: `step.get(...)` requires the
entry to be a dict, else Python raises `AttributeError` (uncaught). -/
def normStep (i : Nat) : J → Except String NStep
  | .obj kvs =>
    .ok ⟨pyGet kvs "step" (J.num (i + 1)), pyGet kvs "description" (J.str ""),
      pyGet kvs "tool" J.null, pyGet kvs "tool_input" J.null⟩
  | _ => .error "AttributeError: object has no attribute get"

/-- The normalisation loop from 1-based position `i + 1`. -/
def normFrom (i : Nat) : List J → Except String (List NStep)
  | [] => .ok []
  | j :: rest => do
    let s ← normStep i j
    let tl ← normFrom (i + 1) rest
    .ok (s :: tl)

/-- The parse-and-normalise step of `planner_node` on the raw model output:
strip, remove a code fence, `json.loads` (only `json.JSONDecodeError` is
caught — it yields the fallback plan), `plan_data.get("plan", [])`,
normalise each entry.  `Except.error` models an uncaught Python exception. -/
def parse_plan (raw : String) : Except String (List NStep) :=
  let content := stripFence (pyStrip raw)
  match jsonLoads content with
  | none => .ok fallbackPlan
  | some plan_data =>
    match plan_data with
    | .obj kvs => do
      let items ← planItems (pyGet kvs "plan" (J.arr []))
      normFrom 0 items
    | _ => .error "AttributeError: object has no attribute get"

/-! ### worker_node (graph.py) -/

/-- A plan step as the source's `PlanStep` TypedDict declares it:
`{step: int, description: str, tool: str | None, tool_input: dict | None}`. -/
structure PlanStep where
  step : Int
  description : String
  tool : Option String
  tool_input : Option (List (String × J))

/-- A context-log entry as the source's `ContextLogEntry` TypedDict
declares it: `{step: int, action: str, result: str}`. -/
structure ContextLogEntry where
  step : Int
  action : String
  result : String

/-- A capability: takes the argument mapping, returns a JSON-serialisable
value or raises (`Except.error` carries `str(e)`). -/
def ToolFn : Type := List (String × J) → Except String J

/-- The tool registry (the source's `TOOL_MAP` dict, name → capability).
The concrete map holds `get_weather`, `add_task`, `search_notes`, whose
behaviour is external I/O; the registry is therefore a parameter, as in
the spec's `execute(plan, registry, existing_log)` contract. -/
def Registry : Type := List (String × ToolFn)

/-- `tool_input = step.get("tool_input") or {}`: an absent (or None)
mapping defaults to the empty mapping. -/
def workerToolInput (s : PlanStep) : List (String × J) :=
  s.tool_input.getD []

/-- `if tool_name and tool_name in TOOL_MAP`: the tool resolves when the
name is present, truthy (non-empty) and a key of the registry. -/
def lookupTool (reg : Registry) (s : PlanStep) : Option ToolFn :=
  match s.tool with
  | none => none
  | some t => if t = "" then none else reg.lookup t

/-- Python `str(result)` on the converted tool result: dicts and lists go
through `json.dumps`, anything else through `str`. -/
def resultToStr : J → String
  | .obj kvs => dumps (.obj kvs)
  | .arr xs => dumps (.arr xs)
  | .str s => s
  | .num n => toString n
  | .fnum lit => lit
  | .bool true => "True"
  | .bool false => "False"
  | .null => "None"

/-- Python `s[:n]`: the first `n` characters. -/
def pyTake (n : Nat) (s : String) : String :=
  String.mk (s.data.take n)

/-- The log entry `worker_node` appends for one plan step:
* tool set, truthy and registered — invoke it on `tool_input or {}`;
  on success the result is serialised and truncated to 1000 characters,
  on an exception the result is `"Error: " + str(e)` (not truncated);
  either way the action is `f"{tool_name}({json.dumps(tool_input)})"`;
* otherwise the reasoning entry
  `{step, action: description, result: "Reasoning/synthesis step completed"}`. -/
def entryFor (reg : Registry) (s : PlanStep) : ContextLogEntry :=
  match s.tool with
  | some t =>
    match if t = "" then none else reg.lookup t with
    | some f =>
      let ti := workerToolInput s
      let action := t ++ "(" ++ dumps (J.obj ti) ++ ")"
      match f ti with
      | .ok r => ⟨s.step, action, pyTake 1000 (resultToStr r)⟩
      | .error e => ⟨s.step, action, "Error: " ++ e⟩
    | none => ⟨s.step, s.description, "Reasoning/synthesis step completed"⟩
  | none => ⟨s.step, s.description, "Reasoning/synthesis step completed"⟩

/-- The worker's loop: walk the plan in its given order, appending one
entry per step to the context log. -/
def worker_execute (reg : Registry) : List PlanStep → List ContextLogEntry → List ContextLogEntry
  | [], log => log
  | s :: rest, log => worker_execute reg rest (log ++ [entryFor reg s])

/-- A LangChain message as the orchestration layer builds them. -/
inductive LCMessage where
  | human (content : String)
  | ai (content : String)

/-- The source's `MultiAgentState` TypedDict.  `main.py` initialises every
key (`plan: None`), so each field is present, `plan` possibly `None`. -/
structure MultiAgentState where
  messages : List LCMessage
  plan : Option (List PlanStep)
  current_step : Int
  context_log : List ContextLogEntry
  final_answer : Option String

/-- `worker_node`: reads `state["plan"]` (iterating `None` raises
`TypeError`, uncaught) and `state["context_log"]` (copied), executes every
step, and returns only the updated `context_log`; the graph merges it into
the state, leaving every other field as it was. -/
def worker_node (reg : Registry) (st : MultiAgentState) : Except String MultiAgentState :=
  match st.plan with
  | none => .error "TypeError: NoneType object is not iterable"
  | some plan => .ok { st with context_log := worker_execute reg plan st.context_log }

/-! ### main.py: convert_messages and stream_response -/

/-- An API message (`{role, content}`). -/
structure Msg where
  role : String
  content : String

/-- `convert_messages`: role `"user"` → `HumanMessage`, `"assistant"` →
`AIMessage`, every other role is skipped. -/
def convert_messages : List Msg → List LCMessage
  | [] => []
  | m :: rest =>
    if m.role = "user" then .human m.content :: convert_messages rest
    else if m.role = "assistant" then .ai m.content :: convert_messages rest
    else convert_messages rest

/-- An internal event delivered by `agent_graph.astream_events` (the kinds
`stream_response` inspects; any other kind yields no wire event). -/
inductive GEvent where
  | chainEnd (output : J)
  | chatModelStream (content : String)
  | toolStart (name : String) (input : J)
  | toolEnd (name : String) (output : J)
  | otherKind (kind : String)

/-- A typed wire event of the SSE protocol. -/
inductive Wire where
  | start
  | plan (p : J)
  | contextLog (log : J)
  | token (content : String)
  | toolStart (name : String) (input : J)
  | toolEnd (name : String) (output : J)
  | endEvt
  | error (message : String)

/-- Python truthiness of a decoded JSON value (`bool(v)`).  A float is
falsy exactly when its mantissa digits are all zero. -/
def jTruthy : J → Bool
  | .null => false
  | .bool b => b
  | .num n => n ≠ 0
  | .fnum lit =>
    ¬ ((lit.data.filter fun c => c.isDigit).all fun c => c = '0')
  | .str s => s ≠ ""
  | .arr xs => ¬ xs.isEmpty
  | .obj kvs => ¬ kvs.isEmpty

/-- `isinstance(output, dict) and k in output and output[k]`. -/
def hasTruthyKey (j : J) (k : String) : Bool :=
  match j with
  | .obj kvs =>
    match kvs.lookup k with
    | some v => jTruthy v
    | none => false
  | _ => false

/-- `output[k]` (guarded by `hasTruthyKey`). -/
def jIndex (j : J) (k : String) : J :=
  match j with
  | .obj kvs => pyGet kvs k J.null
  | _ => J.null

/-- The wire events one internal event yields, with the updated
`plan_sent` flag.  The source's `context_log_sent` flag is initialised
`False` and never set, so its guard is always passed. -/
def processEvent (debug planSent : Bool) : GEvent → List Wire × Bool
  | .chainEnd output =>
    let (w1, planSent') :=
      if debug ∧ ¬ planSent ∧ hasTruthyKey output "plan" then
        ([Wire.plan (jIndex output "plan")], true)
      else ([], planSent)
    let w2 :=
      if debug ∧ hasTruthyKey output "context_log" then
        [Wire.contextLog (jIndex output "context_log")]
      else []
    (w1 ++ w2, planSent')
  | .chatModelStream content =>
    (if content = "" then [] else [Wire.token content], planSent)
  | .toolStart name input => ([Wire.toolStart name input], planSent)
  | .toolEnd name output => ([Wire.toolEnd name output], planSent)
  | .otherKind _ => ([], planSent)

/-- The event loop of `stream_response`, threading `plan_sent`. -/
def processEvents (debug : Bool) : Bool → List GEvent → List Wire
  | _, [] => []
  | planSent, e :: rest =>
    let (ws, planSent') := processEvent debug planSent e
    ws ++ processEvents debug planSent' rest

/-- A run of the graph as `stream_response` observes it: either obtaining
the graph raises, or the stream delivers a list of events and then either
raises (`some message`) or finishes cleanly (`none`). -/
def GraphRun : Type := Except String (List GEvent × Option String)

/-- `stream_response`: on a graph-construction failure a single `error`
event; otherwise `start`, the events of the run, then `end` — unless the
stream raised, in which case `error` and the generator returns. -/
def stream_response (debug : Bool) (run : GraphRun) : List Wire :=
  match run with
  | .error e => [Wire.error e]
  | .ok (events, exc) =>
    Wire.start :: processEvents debug false events ++
      (match exc with
       | some e => [Wire.error e]
       | none => [Wire.endEvt])

/-! ### Helper lemmas -/

/-- The worker's append loop is the map of `entryFor` over the plan. -/
theorem worker_execute_eq_append_map (reg : Registry) (plan : List PlanStep)
    (log : List ContextLogEntry) :
    worker_execute reg plan log = log ++ plan.map (entryFor reg) := by
  induction plan generalizing log with
  | nil => simp [worker_execute]
  | cons s rest ih => simp [worker_execute, ih]

/-- Normalising a list of decoded JSON objects succeeds and fills the
defaults positionally. -/
theorem normFrom_map_obj (fieldss : List (List (String × J))) (i : Nat) :
    normFrom i (fieldss.map J.obj) =
      .ok ((fieldss.enumFrom i).map fun p =>
        ⟨pyGet p.2 "step" (J.num ((p.1 : Int) + 1)), pyGet p.2 "description" (J.str ""),
         pyGet p.2 "tool" J.null, pyGet p.2 "tool_input" J.null⟩) := by
  induction fieldss generalizing i with
  | nil => simp [normFrom]
  | cons fields rest ih =>
    show Except.bind _ _ = _
    simp [normFrom, normStep, List.enumFrom, ih, Except.bind]

/-- The per-event translation emits no `start`, `end` or `error` wire
event (those are emitted only outside the event loop). -/
theorem processEvent_middle (debug planSent : Bool) (e : GEvent) (w : Wire)
    (hw : w ∈ (processEvent debug planSent e).1) :
    w ≠ Wire.start ∧ w ≠ Wire.endEvt ∧ ∀ m, w ≠ Wire.error m := by
  cases e with
  | chainEnd output =>
    simp only [processEvent] at hw
    rcases List.mem_append.mp hw with h1 | h2
    · split at h1 <;> simp_all
    · split at h2 <;> simp_all
  | chatModelStream content =>
    simp only [processEvent] at hw
    split at hw <;> simp_all
  | toolStart name input => simp_all [processEvent]
  | toolEnd name output => simp_all [processEvent]
  | otherKind kind => simp_all [processEvent]

/-- No `start`, `end` or `error` wire event comes out of the event loop. -/
theorem processEvents_middle (debug : Bool) (events : List GEvent) (planSent : Bool) (w : Wire)
    (hw : w ∈ processEvents debug planSent events) :
    w ≠ Wire.start ∧ w ≠ Wire.endEvt ∧ ∀ m, w ≠ Wire.error m := by
  induction events generalizing planSent with
  | nil => simp [processEvents] at hw
  | cons e rest ih =>
    simp only [processEvents] at hw
    rcases List.mem_append.mp hw with h1 | h2
    · exact processEvent_middle debug planSent e w h1
    · exact ih _ h2

/-! ### Claim theorems -/

/-- C1 (counterexample): the claim "for every raw planner output text that
fails to parse (malformed structure, code fences, missing keys, or any
non-JSON text), the parse step never raises and returns exactly the
fallback plan" is false on the code.  The text `"{}"` decodes as JSON but
has no `plan` key: the parse step returns the *empty* plan, not the
fallback; and the text `'{"plan": 3}'` decodes as JSON but the step
raises (`TypeError` is not caught — only `json.JSONDecodeError` is). -/
theorem C1_counterexample :
    (parse_plan "\x7b\x7d" = Except.ok [] ∧ fallbackPlan ≠ []) ∧
    parse_plan "\x7b\"plan\": 3\x7d" = Except.error "TypeError: object is not iterable" := by
  refine ⟨⟨rfl, ?_⟩, rfl⟩
  simp [fallbackPlan]

/-- C1 (amended): for every raw planner output text whose content — after
Python `strip()` and code-fence removal — fails to decode as JSON, the
parse step returns exactly the deterministic fallback plan (the
`json.JSONDecodeError` is caught); no exception escapes on that path. -/
theorem C1_decode_failure_yields_fallback (raw : String)
    (h : jsonLoads (stripFence (pyStrip raw)) = none) :
    parse_plan raw = Except.ok fallbackPlan := by
  simp [parse_plan, h]

/-- C1 (witness): the literal planner output `"not json"` is not JSON and
yields the fallback plan. -/
theorem C1_witness : parse_plan "not json" = Except.ok fallbackPlan :=
  C1_decode_failure_yields_fallback "not json" rfl

/-- C2: executing any plan of length N from an empty context log yields a
log of length exactly N whose i-th entry is the entry for the i-th plan
step, in the plan's given order (no re-sorting, no omission), for every
tool behaviour (success or failure alike). -/
theorem C2_one_entry_per_step_in_order (reg : Registry) (plan : List PlanStep) :
    (worker_execute reg plan []).length = plan.length ∧
    ∀ i : Nat, (worker_execute reg plan [])[i]? = (plan[i]?).map (entryFor reg) := by
  rw [worker_execute_eq_append_map]
  simp [List.getElem?_map]

/-- C9: the parse-and-normalise step is a pure function of the raw text —
running it twice yields identical results — and when the decoded content
is an object whose `plan` field is a list of objects, the normalised plan
keeps the entries in order, filling a missing `step` with the 1-based
position, a missing `description` with the empty string, and missing
`tool` / `tool_input` with null. -/
theorem C9_parse_deterministic_and_normalises (raw : String) (kvs : List (String × J))
    (fieldss : List (List (String × J)))
    (hdec : jsonLoads (stripFence (pyStrip raw)) = some (J.obj kvs))
    (hplan : pyGet kvs "plan" (J.arr []) = J.arr (fieldss.map J.obj)) :
    parse_plan raw = parse_plan raw ∧
    parse_plan raw = Except.ok ((fieldss.enum).map fun p =>
      ⟨pyGet p.2 "step" (J.num ((p.1 : Int) + 1)), pyGet p.2 "description" (J.str ""),
       pyGet p.2 "tool" J.null, pyGet p.2 "tool_input" J.null⟩) := by
  refine ⟨rfl, ?_⟩
  have h := normFrom_map_obj fieldss 0
  simp only [parse_plan, hdec, hplan, planItems]
  exact h

/-- C9 (witness): a concrete planner output with a missing `step` and
`description` in the first entry and a missing `tool` / `tool_input` in
the second. -/
theorem C9_witness :
    parse_plan "\x7b\"plan\": [\x7b\"tool\": \"get_weather\"\x7d, \x7b\"step\": 5, \"description\": \"d\"\x7d]\x7d" =
      Except.ok [⟨J.num 1, J.str "", J.str "get_weather", J.null⟩,
        ⟨J.num 5, J.str "d", J.null, J.null⟩] :=
  (C9_parse_deterministic_and_normalises
    "\x7b\"plan\": [\x7b\"tool\": \"get_weather\"\x7d, \x7b\"step\": 5, \"description\": \"d\"\x7d]\x7d"
    [("plan", J.arr [J.obj [("tool", J.str "get_weather")],
      J.obj [("step", J.num 5), ("description", J.str "d")]])]
    [[("tool", J.str "get_weather")], [("step", J.num 5), ("description", J.str "d")]]
    rfl rfl).2

/-- C10: the API-to-LangChain conversion keeps exactly the messages whose
role is `"user"` or `"assistant"` (in their original relative order,
`user` → `HumanMessage`, `assistant` → `AIMessage`) and silently drops
every other role, `"system"` included. -/
theorem C10_convert_messages_keeps_user_assistant (msgs : List Msg) :
    convert_messages msgs =
      (msgs.filter fun m => decide (m.role = "user" ∨ m.role = "assistant")).map
        fun m => if m.role = "user" then LCMessage.human m.content else LCMessage.ai m.content := by
  induction msgs with
  | nil => simp [convert_messages]
  | cons m rest ih =>
    by_cases hu : m.role = "user"
    · simp [convert_messages, hu, ih]
    · by_cases ha : m.role = "assistant"
      · simp [convert_messages, hu, ha, ih]
      · simp [convert_messages, hu, ha, ih]

/-- C3: a plan step whose tool is registered and whose invocation raises
gets a log entry with the same action string
`f"{tool_name}({json.dumps(tool_input)})"` and result
`"Error: " + str(e)`, and every other step of the plan is still executed
(one entry per step, the full plan length). -/
theorem C3_tool_failure_recorded_run_continues (reg : Registry) (plan : List PlanStep)
    (i : Nat) (s : PlanStep) (t : String) (f : ToolFn) (msg : String)
    (hs : plan[i]? = some s) (ht : s.tool = some t) (hne : ¬ t = "")
    (hf : reg.lookup t = some f) (herr : f (workerToolInput s) = Except.error msg) :
    (worker_execute reg plan [])[i]? =
      some ⟨s.step, t ++ "(" ++ dumps (J.obj (workerToolInput s)) ++ ")", "Error: " ++ msg⟩ ∧
    (worker_execute reg plan []).length = plan.length ∧
    ∀ j : Nat, (worker_execute reg plan [])[j]? = (plan[j]?).map (entryFor reg) := by
  have hmap := worker_execute_eq_append_map reg plan []
  have hentry : entryFor reg s =
      ⟨s.step, t ++ "(" ++ dumps (J.obj (workerToolInput s)) ++ ")", "Error: " ++ msg⟩ := by
    simp [entryFor, ht, hne, hf, herr]
  refine ⟨?_, ?_, ?_⟩
  · rw [hmap]
    simp [List.getElem?_map, hs, hentry]
  · rw [hmap]
    simp
  · intro j
    rw [hmap]
    simp [List.getElem?_map]

def failTool3 : ToolFn := fun _ => Except.error "boom"

def reg3 : Registry := [("fail_tool", failTool3)]

def step3 : PlanStep := ⟨1, "call the failing tool", some "fail_tool", none⟩

def plan3 : List PlanStep := [step3, ⟨2, "synthesize results", none, none⟩]

/-- C3 (witness): a two-step plan whose first step's tool raises `boom` —
the first entry records the error, the second step still runs. -/
theorem C3_witness :
    (worker_execute reg3 plan3 [])[0]? = some ⟨1, "fail_tool(\x7b\x7d)", "Error: boom"⟩ ∧
    (worker_execute reg3 plan3 []).length = 2 ∧
    (worker_execute reg3 plan3 [])[1]? =
      some ⟨2, "synthesize results", "Reasoning/synthesis step completed"⟩ := by
  have h := C3_tool_failure_recorded_run_continues reg3 plan3 0 step3 "fail_tool" failTool3
    "boom" rfl rfl (by simp) rfl rfl
  exact ⟨h.1, h.2.1, (h.2.2 1).trans rfl⟩

/-- The first `n` characters of `pyTake n s` bound its length by `n`. -/
theorem pyTake_length_le (n : Nat) (s : String) : (pyTake n s).length ≤ n := by
  show (s.data.take n).length ≤ n
  simp [List.length_take]

def longErrTool : ToolFn := fun _ => Except.error (String.mk (List.replicate 994 'x'))

def reg4 : Registry := [("long_error_tool", longErrTool)]

def plan4 : List PlanStep := [⟨1, "call the tool", some "long_error_tool", none⟩]

set_option maxRecDepth 8000 in
/-- C4 (counterexample): the claim "every context-log entry's result is at
most 1000 characters, regardless of whether the step succeeded, raised, or
was a reasoning step" is false on the code: the error branch does not
truncate.  A registered capability raising a 994-character message yields
one log entry whose result (`"Error: " + str(e)`) is 1001 characters. -/
theorem C4_counterexample :
    ((worker_execute reg4 plan4 []).map fun e => e.result.length) = [1001] ∧ 1000 < 1001 := by
  exact ⟨rfl, by norm_num⟩

/-- C4 (amended): every context-log entry's result is at most 1000
characters *unless* it is an error entry, whose result is exactly
`"Error: " + str(e)` with no truncation; successful tool results are
truncated to the first 1000 characters (so never exceed 1000), and
reasoning entries carry a fixed short result. -/
theorem C4_results_truncated_except_errors (reg : Registry) (plan : List PlanStep) :
    (∀ e ∈ worker_execute reg plan [],
      e.result.length ≤ 1000 ∨ ∃ msg, e.result = "Error: " ++ msg) ∧
    ∀ s : PlanStep, ∀ t : String, ∀ f : ToolFn, ∀ r : J, s.tool = some t → ¬ t = "" →
      reg.lookup t = some f → f (workerToolInput s) = Except.ok r →
      (entryFor reg s).result = pyTake 1000 (resultToStr r) ∧
      (entryFor reg s).result.length ≤ 1000 := by
  constructor
  · intro e he
    rw [worker_execute_eq_append_map] at he
    simp only [List.nil_append, List.mem_map] at he
    obtain ⟨s, _, rfl⟩ := he
    cases hto : s.tool with
    | none =>
      left
      simp [entryFor, hto]
      decide
    | some t =>
      by_cases hte : t = ""
      · left
        simp [entryFor, hto, hte]
        decide
      · cases hlk : reg.lookup t with
        | none =>
          left
          simp [entryFor, hto, if_neg hte, hlk]
          decide
        | some f =>
          cases hrun : f (workerToolInput s) with
          | ok r =>
            left
            simp only [entryFor, hto, if_neg hte, hlk, hrun]
            exact pyTake_length_le 1000 (resultToStr r)
          | error msg =>
            right
            exact ⟨msg, by simp only [entryFor, hto, if_neg hte, hlk, hrun]⟩
  · intro s t f r ht hte hf hok
    have he : (entryFor reg s).result = pyTake 1000 (resultToStr r) := by
      simp only [entryFor, ht, if_neg hte, hf, hok]
    exact ⟨he, he ▸ pyTake_length_le 1000 (resultToStr r)⟩

/-- C5 (counterexample): the claim "for every run of the streaming chat
endpoint the first emitted wire event has type start" is false on the
code: when obtaining the agent graph raises, `stream_response` emits a
single `error` event and returns — no `start` precedes it. -/
theorem C5_counterexample :
    stream_response false (Except.error "boom") = [Wire.error "boom"] ∧
    [Wire.error "boom"].head? ≠ some Wire.start := by
  refine ⟨rfl, ?_⟩
  simp

/-- C5 (amended): once the agent graph is obtained, the stream is
`start`, then the translated run events — none of which is a `start`,
`end` or `error` (so in particular no `token` precedes `start`) — then
exactly one terminal event, `end` on a clean finish and `error` when the
stream raised, with nothing after it.  When obtaining the graph raises,
the run instead emits the single event `error`. -/
theorem C5_stream_bracketed_by_start_and_terminal (debug : Bool) (events : List GEvent)
    (exc : Option String) (e : String) :
    (∃ term, stream_response debug (Except.ok (events, exc)) =
        Wire.start :: processEvents debug false events ++ [term] ∧
      (term = Wire.endEvt ∨ ∃ m, term = Wire.error m) ∧
      ∀ w ∈ processEvents debug false events,
        w ≠ Wire.start ∧ w ≠ Wire.endEvt ∧ ∀ m, w ≠ Wire.error m) ∧
    stream_response debug (Except.error e) = [Wire.error e] := by
  refine ⟨?_, rfl⟩
  cases exc with
  | none =>
    exact ⟨Wire.endEvt, rfl, Or.inl rfl, fun w hw => processEvents_middle debug events false w hw⟩
  | some m =>
    exact ⟨Wire.error m, rfl, Or.inr ⟨m, rfl⟩,
      fun w hw => processEvents_middle debug events false w hw⟩

/-- C6: a plan step whose tool is absent, or whose tool name does not
resolve in the registry, gets exactly the reasoning entry
`{step, action: description, result: "Reasoning/synthesis step completed"}`,
and a plan containing such a step still executes in full (one entry per
step). -/
theorem C6_unknown_tool_treated_as_reasoning (reg : Registry) (s : PlanStep)
    (h : s.tool = none ∨ ∃ t, s.tool = some t ∧ reg.lookup t = none) :
    entryFor reg s = ⟨s.step, s.description, "Reasoning/synthesis step completed"⟩ ∧
    ∀ pre post : List PlanStep,
      (worker_execute reg (pre ++ s :: post) []).length = pre.length + 1 + post.length := by
  constructor
  · rcases h with hnone | ⟨t, ht, hlk⟩
    · simp [entryFor, hnone]
    · by_cases hte : t = ""
      · simp [entryFor, ht, hte]
      · simp [entryFor, ht, if_neg hte, hlk]
  · intro pre post
    rw [worker_execute_eq_append_map]
    simp
    omega

def stubWeather : ToolFn := fun _ => Except.ok (J.str "sunny")

def reg6 : Registry := [("get_weather", stubWeather)]

def step6 : PlanStep := ⟨1, "use a nonexistent tool", some "nonexistent_tool", none⟩

/-- C6 (witness): a step naming `nonexistent_tool` against a registry that
only knows `get_weather` becomes a reasoning entry and the one-step plan
completes. -/
theorem C6_witness :
    entryFor reg6 step6 = ⟨1, "use a nonexistent tool", "Reasoning/synthesis step completed"⟩ ∧
    (worker_execute reg6 ([] ++ step6 :: []) []).length = 0 + 1 + 0 := by
  have h := C6_unknown_tool_treated_as_reasoning reg6 step6 (Or.inr ⟨"nonexistent_tool", rfl, rfl⟩)
  exact ⟨h.1, h.2 [] []⟩

def echoErrTool : ToolFn := fun args => Except.error (dumps (J.obj args))

def reg7 : Registry := [("echo_args", echoErrTool)]

def step7 : PlanStep :=
  ⟨1, "call the echo tool", some "echo_args", some [("a", J.null), ("b", J.str "x")]⟩

/-- C7 (counterexample): the claim "arguments whose values are null are
filtered out of the mapping before the tool is invoked" is false on the
code: the worker passes `step.get("tool_input") or {}` to the capability
unchanged.  A step with `tool_input = {"a": null, "b": "x"}` hands the
capability a mapping still containing the null-valued key `"a"`, as the
capability itself observes (its exception message echoes its arguments). -/
theorem C7_counterexample :
    workerToolInput step7 = [("a", J.null), ("b", J.str "x")] ∧
    (workerToolInput step7).lookup "a" = some J.null ∧
    entryFor reg7 step7 =
      ⟨1, "echo_args(\x7b\"a\": null, \"b\": \"x\"\x7d)", "Error: \x7b\"a\": null, \"b\": \"x\"\x7d"⟩ :=
  ⟨rfl, rfl, rfl⟩

/-- C7 (amended): the worker passes the capability exactly the step's
`tool_input` mapping — null-valued entries included — defaulting an absent
mapping to the empty mapping; no filtering happens before dispatch.
(The capability here raises a message echoing `json.dumps` of the
arguments it received, so the log entry exhibits the dispatched mapping.) -/
theorem C7_arguments_passed_unfiltered (n : Int) (d : String) (args : List (String × J)) :
    entryFor reg7 ⟨n, d, some "echo_args", some args⟩ =
      ⟨n, "echo_args(" ++ dumps (J.obj args) ++ ")", "Error: " ++ dumps (J.obj args)⟩ ∧
    entryFor reg7 ⟨n, d, some "echo_args", none⟩ =
      ⟨n, "echo_args(\x7b\x7d)", "Error: \x7b\x7d"⟩ :=
  ⟨rfl, rfl⟩

/-- C8: a successful worker invocation only appends to the context log —
the incoming log is an unmodified prefix of the outgoing one — and leaves
`messages`, `plan`, `current_step` and `final_answer` exactly as they
were (in particular the plan is not mutated). -/
theorem C8_worker_only_appends_to_log (reg : Registry) (st st' : MultiAgentState)
    (h : worker_node reg st = Except.ok st') :
    st'.messages = st.messages ∧ st'.plan = st.plan ∧ st'.current_step = st.current_step ∧
    st'.final_answer = st.final_answer ∧
    ∃ appended, st'.context_log = st.context_log ++ appended := by
  cases hp : st.plan with
  | none => simp [worker_node, hp] at h
  | some plan =>
    simp only [worker_node, hp] at h
    have h2 := Except.ok.inj h
    subst h2
    refine ⟨rfl, rfl, rfl, rfl, plan.map (entryFor reg), ?_⟩
    exact worker_execute_eq_append_map reg plan st.context_log

def reg8 : Registry := []

def st8 : MultiAgentState :=
  ⟨[LCMessage.human "hi"], some [⟨1, "think", none, none⟩], 0, [⟨0, "seed", "r"⟩], none⟩

def st8' : MultiAgentState :=
  ⟨[LCMessage.human "hi"], some [⟨1, "think", none, none⟩], 0,
    [⟨0, "seed", "r"⟩, ⟨1, "think", "Reasoning/synthesis step completed"⟩], none⟩

/-- C8 (witness): a concrete state with a one-step plan and a seeded log;
the worker's output keeps every field and appends one entry. -/
theorem C8_witness :
    st8'.messages = st8.messages ∧ st8'.plan = st8.plan ∧ st8'.current_step = st8.current_step ∧
    st8'.final_answer = st8.final_answer ∧
    ∃ appended, st8'.context_log = st8.context_log ++ appended :=
  C8_worker_only_appends_to_log reg8 st8 st8' rfl
